import Mathlib

/-!
A verification development for the decaf HTTP/WebSocket server.

The definitions below are shallow embeddings of the JavaScript source
(`modules/http/lib/Child.js`, `Response.js`, `WebSocket.js` and the
`Request` module).  JavaScript numbers that flow through the bitwise
operators are modelled as mathematical integers together with explicit
32-bit wrapping, exactly as ECMAScript's ToInt32/ToUint32 prescribe;
strings are modelled as Lean strings or as lists of character codes;
JavaScript objects used as maps are modelled as functions into
`Option`; thrown values are modelled with `Except`/`Option` or with
explicit outcome types.
-/

namespace DecafModel

/-! ## JavaScript 32-bit integer semantics

The WebSocket codec in `WebSocket.js` applies `<<`, `>>`, `&` and `|`
to payload lengths.  In JavaScript these operate on 32-bit two's
complement values with the shift count taken modulo 32. -/

/-- ECMAScript ToUint32: the 32-bit bit pattern of an integer. -/
def toUint32 (n : Int) : Nat := (n % 4294967296).toNat

/-- ECMAScript ToInt32: reinterpret the low 32 bits as a signed value. -/
def toInt32 (n : Int) : Int :=
  let m := n % 4294967296
  if m < 2147483648 then m else m - 4294967296

/-- JavaScript `a << b`: 32-bit left shift, count taken mod 32. -/
def jsShl (a : Int) (b : Nat) : Int := toInt32 (toInt32 a * (2 ^ (b % 32)))

/-- JavaScript `a >> b`: 32-bit arithmetic right shift, count mod 32. -/
def jsShr (a : Int) (b : Nat) : Int := Int.fdiv (toInt32 a) (2 ^ (b % 32))

/-- JavaScript `a & b` on 32-bit patterns. -/
def jsAnd (a b : Int) : Int := toInt32 (Int.ofNat (toUint32 a &&& toUint32 b))

/-- JavaScript `a | b` on 32-bit patterns. -/
def jsOr (a b : Int) : Int := toInt32 (Int.ofNat (toUint32 a ||| toUint32 b))

/-! ## WebSocket frame encoder (`WebSocket.js`, `rawSendMessage`)

The encoder writes the byte `0x81` (FIN + text opcode), the length in
the 7/16/64-bit extension scheme, then the raw payload bytes.  The
64-bit branch computes each length byte as `(len >> k) & 0xff` with
JavaScript's 32-bit shift semantics. -/

/-- One length byte of the 64-bit branch: `(len >> k) & 0xff` in JS. -/
def jsShrByte (len : Nat) (k : Nat) : Nat :=
  (jsAnd (jsShr (Int.ofNat len) k) 255).toNat

/-- Byte sequence produced by `rawSendMessage` for a payload `s`
(listed as character codes; `s.length` is the payload length). -/
def rawSendMessage (s : List Nat) : List Nat :=
  let len := s.length
  if len < 126 then
    129 :: len :: s
  else if len < 65536 then
    129 :: 126 :: ((len >>> 8) &&& 255) :: (len &&& 255) :: s
  else
    129 :: 127 ::
      jsShrByte len 56 :: jsShrByte len 48 :: jsShrByte len 40 :: jsShrByte len 32 ::
      jsShrByte len 24 :: jsShrByte len 16 :: jsShrByte len 8 :: jsShrByte len 0 :: s

/-! ## WebSocket frame decoder (`WebSocket.js`, `getMessage`)

`getMessage` reads frames from the input stream until a frame leaves
the FIN flag set, accumulating the payload bytes into `message`.  A
close frame (opcode 8) or any read failure (the surrounding
`try`/`catch`) makes it return `false`, modelled as `none`.  The pong
reply written for a ping frame does not affect the decoded result and
is not modelled. -/

/-- `is.read`-style helper: take exactly `n` bytes off the input, or
fail (a read past the end throws in the source, caught as `false`). -/
def readBytes (n : Nat) (input : List Nat) : Option (List Nat × List Nat) :=
  if n ≤ input.length then some (input.take n, input.drop n) else none

/-- The masked-read loop: XOR each payload byte with the mask byte at
the running index mod 4 (`message += fromCharCode(next() ^ mask[ndx])`). -/
def maskPayload (m0 m1 m2 m3 : Nat) : Nat → List Nat → List Nat
  | _, [] => []
  | ndx, b :: bs =>
    let mb := if ndx % 4 = 0 then m0 else if ndx % 4 = 1 then m1
              else if ndx % 4 = 2 then m2 else m3
    (b ^^^ mb) :: maskPayload m0 m1 m2 m3 (ndx + 1) bs

/-- The 64-bit length loop: `len = 0; 8 times { len = (len << 8) | next() }`
with JavaScript 32-bit shift and or. -/
def readLen64 : Int → Nat → List Nat → Option (Int × List Nat)
  | acc, 0, input => some (acc, input)
  | _, _ + 1, [] => none
  | acc, i + 1, b :: rest => readLen64 (jsOr (jsShl acc 8) (Int.ofNat b)) i rest

/-- Resolve the payload length from the low 7 bits of the length byte:
126 selects a 16-bit big-endian length, 127 the 64-bit loop. -/
def readFrameLen (len0 : Nat) (input : List Nat) : Option (Int × List Nat) :=
  if len0 = 126 then
    match input with
    | b1 :: b2 :: rest => some (jsOr (jsShl (Int.ofNat b1) 8) (Int.ofNat b2), rest)
    | _ => none
  else if len0 = 127 then
    readLen64 0 8 input
  else
    some (Int.ofNat len0, input)

/-- Read the payload of one frame: a masked frame first reads the
4-byte mask then XORs it over the payload; an unmasked frame reads the
payload bytes directly. -/
def readPayload (masked : Bool) (len : Nat) (input : List Nat) :
    Option (List Nat × List Nat) :=
  if masked then
    match input with
    | m0 :: m1 :: m2 :: m3 :: rest =>
      match readBytes len rest with
      | some (raw, rest2) => some (maskPayload m0 m1 m2 m3 0 raw, rest2)
      | none => none
    | _ => none
  else
    readBytes len input

/-- Result of processing one frame inside `getMessage`'s loop:
`terminate` covers both a close frame and a read failure (either makes
`getMessage` return `false`); `cont fin payload rest` is a decoded
data/control frame.  Per the source, a frame whose resolved length is
0 forces `fin = false` afterwards. -/
inductive FrameStep
  | terminate : FrameStep
  | cont : Bool → List Nat → List Nat → FrameStep
deriving DecidableEq

/-- One iteration of the `while (!fin)` loop in `getMessage`. -/
def readFrame : List Nat → FrameStep
  | [] => .terminate
  | op :: rest =>
    let fin : Bool := op &&& 128 != 0
    if op &&& 127 = 8 then .terminate
    else
      match rest with
      | [] => .terminate
      | lb :: rest2 =>
        let masked : Bool := lb &&& 128 != 0
        let len0 := lb &&& 127
        match readFrameLen len0 rest2 with
        | none => .terminate
        | some (len, rest3) =>
          match readPayload masked len.toNat rest3 with
          | none => .terminate
          | some (payload, rest4) =>
            .cont (if len = 0 then false else fin) payload rest4

/-- The frame loop of `getMessage`, with fuel (each iteration consumes
at least one input byte, so `input.length + 1` fuel always suffices). -/
def getMessageAux : Nat → List Nat → List Nat → Option (List Nat)
  | 0, _, _ => none
  | fuel + 1, msg, input =>
    match readFrame input with
    | .terminate => none
    | .cont fin payload rest =>
      if fin then some (msg ++ payload) else getMessageAux fuel (msg ++ payload) rest

/-- `getMessage`: decode one complete message from the input bytes;
`none` models the `false` return (close or failure). -/
def getMessage (input : List Nat) : Option (List Nat) :=
  getMessageAux (input.length + 1) [] input

/-! ### Helper lemmas for the codec -/

theorem readBytes_all (l : List Nat) : readBytes l.length l = some (l, []) := by
  simp [readBytes]

set_option maxRecDepth 8000 in
theorem readLen64_c4 (p : List Nat) :
    readLen64 0 8 (0 :: 1 :: 17 :: 112 :: 0 :: 1 :: 17 :: 112 :: p) = some (70000, p) := by
  rfl

theorem rawSendMessage_c4 (p : List Nat) (h : p.length = 70000) :
    rawSendMessage p =
      129 :: 127 :: 0 :: 1 :: 17 :: 112 :: 0 :: 1 :: 17 :: 112 :: p := by
  have h56 : jsShrByte 70000 56 = 0 := by decide
  have h48 : jsShrByte 70000 48 = 1 := by decide
  have h40 : jsShrByte 70000 40 = 17 := by decide
  have h32 : jsShrByte 70000 32 = 112 := by decide
  have h24 : jsShrByte 70000 24 = 0 := by decide
  have h16 : jsShrByte 70000 16 = 1 := by decide
  have h8 : jsShrByte 70000 8 = 17 := by decide
  have h0 : jsShrByte 70000 0 = 112 := by decide
  unfold rawSendMessage
  rw [h]
  norm_num [h56, h48, h40, h32, h24, h16, h8, h0]

set_option maxRecDepth 8000 in
theorem readFrame_c4 (p : List Nat) (h : p.length = 70000) :
    readFrame (129 :: 127 :: 0 :: 1 :: 17 :: 112 :: 0 :: 1 :: 17 :: 112 :: p) =
      .cont true p [] := by
  have hfin : (((129 : Nat) &&& 128) != 0) = true := by decide
  have hop : ¬ ((129 : Nat) &&& 127 = 8) := by decide
  have hmask : (((127 : Nat) &&& 128) != 0) = false := by decide
  have hlen0 : (127 : Nat) &&& 127 = 127 := by decide
  simp only [readFrame, hfin, hmask, hlen0, if_neg hop, readFrameLen]
  norm_num [readLen64_c4]
  simp only [readPayload]
  rw [show ((70000 : Int)).toNat = 70000 from rfl, ← h, readBytes_all]
  norm_num

theorem readFrame_zeroMasked (op m0 m1 m2 m3 : Nat) (rest : List Nat)
    (h : op &&& 127 ≠ 8) :
    readFrame (op :: 128 :: m0 :: m1 :: m2 :: m3 :: rest) = .cont false [] rest := by
  have hmask : (((128 : Nat) &&& 128) != 0) = true := by decide
  have hlen0 : (128 : Nat) &&& 127 = 0 := by decide
  simp only [readFrame, hmask, hlen0, if_neg h, readFrameLen]
  norm_num [readPayload, readBytes, maskPayload]

theorem readFrame_zeroUnmasked (op : Nat) (rest : List Nat)
    (h : op &&& 127 ≠ 8) :
    readFrame (op :: 0 :: rest) = .cont false [] rest := by
  have hmask : (((0 : Nat) &&& 128) != 0) = false := by decide
  have hlen0 : (0 : Nat) &&& 127 = 0 := by decide
  simp only [readFrame, hmask, hlen0, if_neg h, readFrameLen]
  norm_num [readPayload, readBytes]

set_option maxRecDepth 8000 in
/-- C4: for every text payload of length 70000 (forcing the 64-bit
length-extension scheme), encoding it with the server frame encoder
`rawSendMessage` and then decoding the produced byte sequence with the
frame decoder `getMessage` returns exactly the original payload. -/
theorem c4_encode_decode_roundtrip (p : List Nat) (h : p.length = 70000) :
    getMessage (rawSendMessage p) = some p := by
  have hf := readFrame_c4 p h
  rw [rawSendMessage_c4 p h]
  simp only [getMessage, List.length_cons, getMessageAux, hf]
  simp

/-- Witness for C4 at the concrete payload of 70000 zero bytes. -/
theorem c4_encode_decode_roundtrip_witness :
    getMessage (rawSendMessage (List.replicate 70000 0)) =
      some (List.replicate 70000 0) :=
  c4_encode_decode_roundtrip (List.replicate 70000 0) (List.length_replicate 70000 0)

/-- C10: in the frame decoder `getMessage`, every frame whose payload
length is 0 is treated as non-final regardless of its FIN bit — after
reading such a frame (masked or unmasked) the decoder clears the FIN
flag and keeps reading — so a message consisting of a single empty
data frame with FIN set is never returned to the caller (the decoder
runs off the end of the input and signals closure instead). -/
theorem c10_zero_length_frame_never_final (op m0 m1 m2 m3 : Nat) (rest : List Nat)
    (h : op &&& 127 ≠ 8) :
    readFrame (op :: 128 :: m0 :: m1 :: m2 :: m3 :: rest) = .cont false [] rest ∧
    readFrame (op :: 0 :: rest) = .cont false [] rest ∧
    getMessage [op, 128, m0, m1, m2, m3] = none := by
  refine ⟨readFrame_zeroMasked op m0 m1 m2 m3 rest h, readFrame_zeroUnmasked op rest h, ?_⟩
  simp only [getMessage, List.length_cons, List.length_nil, getMessageAux,
    readFrame_zeroMasked op m0 m1 m2 m3 [] h]
  simp [readFrame]

/-- Witness for C10 at a FIN-set empty masked text frame (first byte
0x81, length byte 0x80, zero mask). -/
theorem c10_zero_length_frame_never_final_witness :
    readFrame [129, 128, 0, 0, 0, 0] = .cont false [] [] ∧
    getMessage [129, 128, 0, 0, 0, 0] = none := by
  have h := c10_zero_length_frame_never_final 129 0 0 0 0 [] (by decide)
  exact ⟨h.1, h.2.2⟩

/-! ## JavaScript objects used as string maps

`request.headers`, `response.headers` and the request `data` hash are
plain JavaScript objects: string keys, assignment overwrites, absent
keys read as `undefined`. -/

/-- A JavaScript object used as a map from strings to strings. -/
def Headers := String → Option String

/-- Property assignment `obj[k] = v`. -/
def hset (m : Headers) (k v : String) : Headers :=
  fun q => if q = k then some v else m q

/-- The empty object `{}`. -/
def hempty : Headers := fun _ => none

/-- JavaScript `String.prototype.toLowerCase` (character-wise). -/
def jsToLowerCase (s : String) : String := String.mk (s.data.map Char.toLower)

/-! ## Response early termination and the Child worker loop
(`Response.js` `stop`, `Child.js` inner loop and `handleRequest`) -/

/-- The string the source throws for `res.stop()` (`throw 'RES.STOP'`). -/
def resStopSignal : String := "RES.STOP"

/-- A JavaScript thrown value as discriminated by the worker's catch
block: either a plain string signal or an error object (which is the
only kind with a `dumpText` member). -/
inductive Thrown
  | str (s : String)
  | errObj
deriving DecidableEq

/-- What the catch block in `Child.js` (lines 89-106) decides to do. -/
inductive CatchAction
  | rethrow
  | breakLoop
  | dumpClose
  | contLoop
  | logClose
deriving DecidableEq

/-- The catch block of the inner request loop: `THREAD.EXIT` is
rethrown, `EOF` breaks, an error object is dumped and closes the
connection, `RES.STOP` continues the loop, anything else is logged and
closes the connection. -/
def catchDispatch : Thrown → CatchAction
  | .errObj => .dumpClose
  | .str s =>
    if s = "THREAD.EXIT" then .rethrow
    else if s = "EOF" then .breakLoop
    else if s = resStopSignal then .contLoop
    else .logClose

/-- Result of handling a single request in `handleRequest`
(`Child.js` lines 131-172): whether the request was a WebSocket
upgrade, the response headers it set, and the returned keep-alive flag. -/
structure HandleResult where
  upgraded : Bool
  headers : Headers
  keepAlive : Bool

/-- The connection-management part of `handleRequest`: the request's
`connection` header is lower-cased; `upgrade` enters the WebSocket
path (which always returns `false`), `keep-alive` sets
`Connection: Keep-Alive` plus the advisory `keep-alive` header and
keeps the flag true, anything else sets `Connection: close` and
clears it; a handler returning `false` forces `Connection: close`
and a false flag.  The WebSocket upgrade subtree itself (`Upgrade`
header check, route lookup) is not needed here and is collapsed. -/
def handleRequest (reqConnection : Option String) (handlerReturnsFalse : Bool) :
    HandleResult :=
  let connection := jsToLowerCase (reqConnection.getD "")
  if connection = "upgrade" then
    { upgraded := true, headers := hempty, keepAlive := false }
  else
    let r :=
      if connection = "keep-alive" then
        { upgraded := false
          headers := hset (hset hempty "Connection" "Keep-Alive")
            "keep-alive" "timeout: 5; max = 10000000"
          keepAlive := true }
      else
        { upgraded := false
          headers := hset hempty "Connection" "close"
          keepAlive := false }
    if handlerReturnsFalse then
      { r with headers := hset r.headers "Connection" "close", keepAlive := false }
    else r

/-- Outcome of one `handleRequest` call as seen by the inner loop:
either it returns a keep-alive flag or it throws. -/
inductive HandleOutcome
  | ret (keepAlive : Bool)
  | thrown (e : Thrown)

/-- How the inner per-connection loop of `Child.js` ends: normally
(falling through to the stream/socket `destroy` calls) or by the
rethrown `THREAD.EXIT` escaping the loop. -/
inductive LoopExit
  | closed
  | threadExit
deriving DecidableEq

/-- The inner `while (keepAlive)` loop of `Child.js` (lines 80-107)
over a script of request outcomes: returns how many requests were
handled on this connection and how the loop exited.  An exhausted
script behaves like the peer closing the stream. -/
def childInner : List HandleOutcome → Nat × LoopExit
  | [] => (0, .closed)
  | .ret true :: rest =>
    let r := childInner rest
    (r.1 + 1, r.2)
  | .ret false :: _ => (1, .closed)
  | .thrown e :: rest =>
    match catchDispatch e with
    | .rethrow => (1, .threadExit)
    | .breakLoop => (1, .closed)
    | .contLoop =>
      let r := childInner rest
      (r.1 + 1, r.2)
    | .dumpClose => (1, .closed)
    | .logClose => (1, .closed)

/-- C7: if the handler calls `res.stop()` mid-request, the thrown
`RES.STOP` signal is caught by the worker loop as a `continue`: the
connection is not closed, and the requests after it on the same
connection are still processed exactly as they would have been. -/
theorem c7_stop_keeps_connection_alive (rest : List HandleOutcome) :
    catchDispatch (.str resStopSignal) = .contLoop ∧
    childInner (.thrown (.str resStopSignal) :: rest) =
      ((childInner rest).1 + 1, (childInner rest).2) := by
  constructor
  · decide
  · simp [childInner, catchDispatch, resStopSignal]

/-- C1 (amended): with the `connection` request header equal to
`keep-alive` (case-insensitively) and the handler not demanding a
close, the worker sets `Connection: Keep-Alive` and the advisory
header `keep-alive: timeout: 5; max = 10000000` (this exact string,
with colon and spaces) and the loop goes on to serve the next request
on the connection; with any other non-`upgrade` value (or no header)
it sets `Connection: close` and the loop ends after this response. -/
theorem c1_connection_header_handling (reqConnection : Option String)
    (handlerReturnsFalse : Bool) (rest : List HandleOutcome) :
    (jsToLowerCase (reqConnection.getD "") = "keep-alive" →
      handlerReturnsFalse = false →
      (handleRequest reqConnection handlerReturnsFalse).headers "Connection" =
          some "Keep-Alive" ∧
      (handleRequest reqConnection handlerReturnsFalse).headers "keep-alive" =
          some "timeout: 5; max = 10000000" ∧
      (handleRequest reqConnection handlerReturnsFalse).keepAlive = true ∧
      childInner (.ret (handleRequest reqConnection handlerReturnsFalse).keepAlive :: rest) =
        ((childInner rest).1 + 1, (childInner rest).2)) ∧
    (jsToLowerCase (reqConnection.getD "") ≠ "keep-alive" →
      jsToLowerCase (reqConnection.getD "") ≠ "upgrade" →
      (handleRequest reqConnection handlerReturnsFalse).headers "Connection" =
          some "close" ∧
      (handleRequest reqConnection handlerReturnsFalse).keepAlive = false ∧
      childInner (.ret (handleRequest reqConnection handlerReturnsFalse).keepAlive :: rest) =
        (1, .closed)) := by
  constructor
  · intro hconn hf
    have hne : jsToLowerCase (reqConnection.getD "") ≠ "upgrade" := by
      rw [hconn]; decide
    simp only [handleRequest, hconn, hf, if_neg (by decide : ¬ ("keep-alive" = "upgrade")),
      if_pos rfl, if_neg (by simp : ¬ (False))]
    refine ⟨?_, ?_, ?_, ?_⟩ <;> simp [hset, childInner]
  · intro hka hup
    simp only [handleRequest, if_neg hup, if_neg hka]
    cases handlerReturnsFalse <;> simp [hset, childInner]

/-- C1 counterexample: the advisory header value the code actually
sets is `timeout: 5; max = 10000000`, not the `timeout=5; max=10000000`
stated by the claim. -/
theorem c1_counterexample :
    (handleRequest (some "keep-alive") false).headers "keep-alive" =
        some "timeout: 5; max = 10000000" ∧
    (handleRequest (some "keep-alive") false).headers "keep-alive" ≠
        some "timeout=5; max=10000000" := by
  constructor <;> decide

/-- Witness for C1 at concrete connection header values. -/
theorem c1_witness :
    (handleRequest (some "Keep-Alive") false).headers "Connection" = some "Keep-Alive" ∧
    (handleRequest (some "Keep-Alive") false).headers "keep-alive" =
        some "timeout: 5; max = 10000000" ∧
    (handleRequest (some "close") false).headers "Connection" = some "close" := by
  have h1 := (c1_connection_header_handling (some "Keep-Alive") false []).1 (by decide) rfl
  have h2 := (c1_connection_header_handling (some "close") false []).2 (by decide) (by decide)
  exact ⟨h1.1, h1.2.1, h2.1⟩

/-! ## `Response.js`: `sendFile` and `sendBytes`

`sendFile` reads the file's `lastModified()` (milliseconds, 0 for a
missing file) and `length()`, truncates the timestamp to seconds, and
serves 304 when `modified < modifiedSince` (strict); otherwise it
streams the whole file with `Content-Length` set to the size, through
a loop reading up to 65536 bytes at a time.  `sendBytes` applies its
conditional check as `lastModified <= modifiedSince` (non-strict)
after truncating both timestamps to seconds. -/

/-- `sendFile` throws `new Error('404')` for a missing file. -/
inductive RespError
  | notFound
deriving DecidableEq

/-- The observable response of a send: status, the `Content-Length`
header if set, and the body bytes written. -/
structure SendResult where
  status : Nat
  contentLength : Option Nat
  body : List Nat
deriving DecidableEq

/-- The `while (remaining > 0)` copy loop of `sendFile`, with fuel;
`inFile.read(buf)` on a 65536-byte buffer returns at most 65536 bytes
and the loop breaks at end of file. -/
def fileWriteLoopF : Nat → List Nat → Int → List Nat
  | 0, _, _ => []
  | fuel + 1, content, remaining =>
    if remaining ≤ 0 then []
    else
      match content with
      | [] => []
      | _ :: _ =>
        content.take (min 65536 content.length) ++
          fileWriteLoopF fuel (content.drop (min 65536 content.length))
            (remaining - min 65536 content.length)

/-- The copy loop (the fuel `content.length + 1` always suffices,
since every iteration consumes at least one byte of the file). -/
def fileWriteLoop (content : List Nat) (remaining : Int) : List Nat :=
  fileWriteLoopF (content.length + 1) content remaining

/-- `res.sendFile(filename, modifiedSince)`: the file is given by its
content bytes and its `lastModified()` timestamp in milliseconds
(0 when the file does not exist); `modifiedSince` is the parsed
if-modified-since date in whole seconds (the string branch computes
`Date.parse(s) / 1000`). -/
def sendFile (content : List Nat) (lastModifiedMs : Nat)
    (modifiedSince : Option Nat) : Except RespError SendResult :=
  if lastModifiedMs = 0 then .error .notFound
  else
    let modified := lastModifiedMs / 1000
    let size := content.length
    let is304 : Bool :=
      match modifiedSince with
      | none => false
      | some ms => if ms = 0 then false else decide (modified < ms)
    if is304 then .ok ⟨304, none, []⟩
    else .ok ⟨200, some size, fileWriteLoop content (size : Int)⟩

/-- `res.sendBytes(bytes, mimeType, lastModified, modifiedSince)`:
`status` models the current `this.status` (200 by default), both
timestamps are milliseconds and are truncated to seconds before the
non-strict comparison; a falsy (absent or zero) `lastModified` or
`modifiedSince` skips the 304 check.  The mime-type header is not
material here and is omitted. -/
def sendBytes (bytes : List Nat) (status : Nat) (lastModifiedMs : Nat)
    (modifiedSinceMs : Option Nat) : SendResult :=
  if lastModifiedMs = 0 then ⟨status, some bytes.length, bytes⟩
  else
    let lm := lastModifiedMs / 1000
    match modifiedSinceMs with
    | none => ⟨status, some bytes.length, bytes⟩
    | some ms =>
      if ms = 0 then ⟨status, some bytes.length, bytes⟩
      else if lm ≤ ms / 1000 then ⟨304, none, []⟩
      else ⟨status, some bytes.length, bytes⟩

/-- The copy loop writes the whole file when asked for exactly the
file's length. -/
theorem fileWriteLoopF_all (fuel : Nat) :
    ∀ content : List Nat, content.length < fuel →
      fileWriteLoopF fuel content (content.length : Int) = content := by
  induction fuel with
  | zero => intro content h; omega
  | succ n ih =>
    intro content h
    match content with
    | [] => simp [fileWriteLoopF]
    | c :: cs =>
      have hpos : ¬ (((c :: cs).length : Int) ≤ 0) := by
        simp
      rw [fileWriteLoopF, if_neg hpos]
      have hmin : min 65536 (c :: cs).length ≤ (c :: cs).length := Nat.min_le_right _ _
      have hdrop : ((c :: cs).drop (min 65536 (c :: cs).length)).length =
          (c :: cs).length - min 65536 (c :: cs).length := by
        simp [List.length_drop]
      have hcast : (((c :: cs).length : Nat) : Int) - (min 65536 (c :: cs).length : Nat) =
          ((((c :: cs).drop (min 65536 (c :: cs).length)).length : Nat) : Int) := by
        rw [hdrop, Nat.cast_sub hmin]
      rw [hcast, ih _ (by rw [hdrop]; omega)]
      exact List.take_append_drop _ _

theorem fileWriteLoop_all (content : List Nat) :
    fileWriteLoop content (content.length : Int) = content :=
  fileWriteLoopF_all (content.length + 1) content (Nat.lt_succ_self _)

instance {ε α : Type} [DecidableEq ε] [DecidableEq α] : DecidableEq (Except ε α) :=
  fun a b =>
    match a, b with
    | .error e, .error f =>
      if h : e = f then isTrue (by rw [h]) else isFalse (by simp [h])
    | .ok x, .ok y =>
      if h : x = y then isTrue (by rw [h]) else isFalse (by simp [h])
    | .error _, .ok _ => isFalse (by simp)
    | .ok _, .error _ => isFalse (by simp)

/-- C3 (amended): for `res.sendFile` on an existing file, a
`modifiedSince` strictly after the file's last-modified time
(truncated to seconds) produces status 304 with no body bytes; a
`modifiedSince` at or before it (and likewise no `modifiedSince` at
all) produces status 200 with the full content and `Content-Length`
equal to the file size; a missing file raises the not-found error. -/
theorem c3_sendFile_conditional (content : List Nat) (lastModifiedMs ms : Nat)
    (hm : lastModifiedMs ≠ 0) (hs : ms ≠ 0) :
    (lastModifiedMs / 1000 < ms →
      sendFile content lastModifiedMs (some ms) = .ok ⟨304, none, []⟩) ∧
    (ms ≤ lastModifiedMs / 1000 →
      sendFile content lastModifiedMs (some ms) =
        .ok ⟨200, some content.length, content⟩) ∧
    (sendFile content lastModifiedMs none =
      .ok ⟨200, some content.length, content⟩) ∧
    (∀ since : Option Nat, sendFile content 0 since = .error .notFound) := by
  refine ⟨?_, ?_, ?_, ?_⟩
  · intro hlt
    simp [sendFile, hm, hs, hlt]
  · intro hge
    simp [sendFile, hm, hs, Nat.not_lt.mpr hge, fileWriteLoop_all]
  · simp [sendFile, hm, fileWriteLoop_all]
  · intro since
    simp [sendFile]

/-- C3 counterexample: with the file's last-modified time equal to
`modifiedSince` (here both one second after the epoch), the claim
demands 304 with no body, but the code serves 200 with the full
content — the source's comparison `modified < modifiedSince` is
strict. -/
theorem c3_counterexample :
    sendFile [97] 1000 (some 1) = .ok ⟨200, some 1, [97]⟩ ∧
    sendFile [97] 1000 (some 1) ≠ .ok ⟨304, none, []⟩ := by
  constructor <;> decide

/-- Witness for C3 at concrete timestamps. -/
theorem c3_witness :
    sendFile [97] 1000 (some 2) = .ok ⟨304, none, []⟩ ∧
    sendFile [97] 2000 (some 1) = .ok ⟨200, some 1, [97]⟩ := by
  have h1 := (c3_sendFile_conditional [97] 1000 2 (by decide) (by decide)).1 (by decide)
  have h2 := (c3_sendFile_conditional [97] 2000 1 (by decide) (by decide)).2.1 (by decide)
  exact ⟨h1, h2⟩

/-- C9 (amended): `sendBytes` emits 304 exactly when the
seconds-truncated `modifiedSince` is at or after the seconds-truncated
`lastModified` (non-strict `<=`), while `sendFile` emits 304 exactly
when `modifiedSince` is strictly after; the two decisions agree
whenever the truncated timestamps differ, and disagree exactly at
equality. -/
theorem c9_304_conditions (bytes content : List Nat) (lastModifiedMs s : Nat)
    (hm : lastModifiedMs ≠ 0) (hs : s ≠ 0) :
    (sendBytes bytes 200 lastModifiedMs (some (s * 1000)) = ⟨304, none, []⟩ ↔
      lastModifiedMs / 1000 ≤ s) ∧
    (sendFile content lastModifiedMs (some s) = .ok ⟨304, none, []⟩ ↔
      lastModifiedMs / 1000 < s) ∧
    (lastModifiedMs / 1000 ≠ s →
      (sendBytes bytes 200 lastModifiedMs (some (s * 1000)) = ⟨304, none, []⟩ ↔
        sendFile content lastModifiedMs (some s) = .ok ⟨304, none, []⟩)) := by
  have hms : s * 1000 ≠ 0 := by
    intro h
    exact hs (by omega)
  have hdiv : s * 1000 / 1000 = s := Nat.mul_div_cancel s (by norm_num)
  have hb : sendBytes bytes 200 lastModifiedMs (some (s * 1000)) = ⟨304, none, []⟩ ↔
      lastModifiedMs / 1000 ≤ s := by
    simp only [sendBytes, if_neg hm, if_neg hms, hdiv]
    by_cases hle : lastModifiedMs / 1000 ≤ s
    · simp [hle]
    · simp [hle]
  have hf : sendFile content lastModifiedMs (some s) = .ok ⟨304, none, []⟩ ↔
      lastModifiedMs / 1000 < s := by
    simp only [sendFile, if_neg hm]
    by_cases hlt : lastModifiedMs / 1000 < s
    · simp [hlt, hs]
    · simp [hlt, hs]
  refine ⟨hb, hf, ?_⟩
  intro hne
  rw [hb, hf]
  omega

/-- C9 counterexample: at the same instant (last-modified 1000 ms,
if-modified-since one second), `sendBytes` answers 304 but `sendFile`
serves the full 200 response — the two do not apply the same
condition, and neither matches the claimed "at or after" rule in both
cases. -/
theorem c9_counterexample :
    sendBytes [97] 200 1000 (some 1000) = ⟨304, none, []⟩ ∧
    sendFile [97] 1000 (some 1) = .ok ⟨200, some 1, [97]⟩ := by
  constructor <;> decide

/-- Witness for C9 at concrete timestamps. -/
theorem c9_witness :
    sendBytes [5] 200 1000 (some 2000) = ⟨304, none, []⟩ ∧
    sendFile [7] 1000 (some 2) = .ok ⟨304, none, []⟩ := by
  have h := c9_304_conditions [5] [7] 1000 2 (by decide) (by decide)
  exact ⟨h.1.mpr (by decide), h.2.1.mpr (by decide)⟩

/-! ## Request body handling (the `Request` module)

The `Request` constructor computes
`contentLength = parseInt(headers['content-length'] || '0', 10)`;
if that is truthy it first rejects bodies larger than `maxUpload`
(`maxUpload || 10 * 1024 * 1024`) by throwing the 413 error, and only
then reads `contentLength` bytes and dispatches on the content type. -/

/-- JavaScript string split on a single-character separator
(`String.prototype.split`), as used for `'&'` and `'='`. -/
def splitChar (sep : Char) : List Char → List (List Char)
  | [] => [[]]
  | c :: rest =>
    match splitChar sep rest with
    | [] => [[]]
    | g :: gs => if c = sep then [] :: g :: gs else (c :: g) :: gs

/-- `s.split(sep)` on strings. -/
def jsSplit (s : String) (sep : Char) : List String :=
  (splitChar sep s.data).map String.mk

/-- `s.indexOf(c) !== -1`. -/
def jsIncludes (s : String) (c : Char) : Bool := s.data.contains c

/-- The leading decimal digits of a string. -/
def leadDigits : List Char → List Char
  | [] => []
  | c :: rest => if c.isDigit then c :: leadDigits rest else []

/-- Value of a list of decimal digits. -/
def digitsToNat (ds : List Char) : Nat :=
  ds.foldl (fun a c => 10 * a + (c.toNat - 48)) 0

/-- JavaScript `parseInt(s, 10)` restricted to the shapes that occur
here (an optionally digit-led string): `none` models `NaN`, which is
falsy in the `if (contentLength)` test. -/
def jsParseInt (s : String) : Option Nat :=
  match leadDigits s.data with
  | [] => none
  | ds => some (digitsToNat ds)

/-- `maxUpload = maxUpload || (10 * 1024 * 1024)`. -/
def defaultMaxUpload : Nat := 10 * 1024 * 1024

/-- The effective upload cap (absent or zero argument means the
default). -/
def effectiveMaxUpload : Option Nat → Nat
  | none => defaultMaxUpload
  | some 0 => defaultMaxUpload
  | some (n + 1) => n + 1

/-- Failures thrown while constructing a `Request`: `'EOF'` when the
stream ends, or `new Error('413 File upload exceeds <max> bytes')`. -/
inductive ReqError
  | eof
  | payloadTooLarge (maxUpload : Nat)
deriving DecidableEq

/-- The body-reading step of the `Request` constructor: parse the
declared `content-length` (absent defaults to the string `'0'`);
a falsy value means no body; a declared length above the cap throws
the 413 error *before* any read; otherwise exactly that many bytes
are read off the stream.  The result pairs the outcome with the
number of body bytes consumed from the stream. -/
def readBody (clHeader : Option String) (maxUpload : Option Nat)
    (stream : List Nat) : Except ReqError (Option (List Nat)) × Nat :=
  let maxU := effectiveMaxUpload maxUpload
  match jsParseInt (clHeader.getD "0") with
  | none => (.ok none, 0)
  | some 0 => (.ok none, 0)
  | some (n + 1) =>
    if n + 1 > maxU then (.error (.payloadTooLarge maxU), 0)
    else
      match readBytes (n + 1) stream with
      | some (raw, _) => (.ok (some raw), n + 1)
      | none => (.error .eof, 0)

/-- C5: a declared `Content-Length` above the configured maximum
(default 10 MiB) makes `Request` construction fail with the
payload-too-large error before any body byte is read (zero bytes
consumed); a declared length at most the maximum reads the body in
full and does not fail for this reason. -/
theorem c5_content_length_cap (s : String) (n : Nat) (maxUpload : Option Nat)
    (stream : List Nat) (hp : jsParseInt s = some n) (hn : n ≠ 0) :
    (effectiveMaxUpload maxUpload < n →
      readBody (some s) maxUpload stream =
        (.error (.payloadTooLarge (effectiveMaxUpload maxUpload)), 0)) ∧
    (n ≤ effectiveMaxUpload maxUpload → n ≤ stream.length →
      readBody (some s) maxUpload stream = (.ok (some (stream.take n)), n)) := by
  obtain ⟨m, rfl⟩ : ∃ m, n = m + 1 := ⟨n - 1, by omega⟩
  constructor
  · intro hbig
    simp [readBody, hp, Nat.lt_iff_add_one_le, hbig]
  · intro hle hlen
    simp [readBody, hp, readBytes, Nat.not_lt.mpr hle, hlen]

/-- Witness for C5: an 10485761-byte declaration trips the default
cap with nothing consumed; a 3-byte declaration is read in full. -/
theorem c5_witness :
    readBody (some "10485761") none [] = (.error (.payloadTooLarge 10485760), 0) ∧
    readBody (some "3") none [7, 8, 9] = (.ok (some [7, 8, 9]), 3) := by
  have h1 := (c5_content_length_cap "10485761" 10485761 none []
    (by decide) (by decide)).1 (by decide)
  have h2 := (c5_content_length_cap "3" 3 none [7, 8, 9]
    (by decide) (by decide)).2 (by decide) (by decide)
  exact ⟨h1, h2⟩

/-! ## Query-string and url-encoded body decoding (the `Request` module)

The query string is split on `'&'`; each pair is split on `'='`, the
value has `'+'` replaced by spaces and is percent-decoded, and the
result is stored under the raw key in both `queryParams` and `data`
(a failing pair is skipped by the surrounding `try`/`catch`).  A body
with `Content-Type: application/x-www-form-urlencoded` is decoded the
same way — but only when the body contains both `'&'` and `'='`;
otherwise the whole raw body is stored under `data.post`.  The body
path has no `try`/`catch`: a bad pair propagates out of the
constructor. -/

/-- `value.replace(/\+/g, ' ')` — identical for the `/\+/gm` variant. -/
def plusToSpace (s : String) : String :=
  String.mk (s.data.map fun c => if c = '+' then ' ' else c)

/-- Value of one hexadecimal digit. -/
def hexDigVal (c : Char) : Option Nat :=
  if '0' ≤ c ∧ c ≤ '9' then some (c.toNat - 48)
  else if 'a' ≤ c ∧ c ≤ 'f' then some (c.toNat - 87)
  else if 'A' ≤ c ∧ c ≤ 'F' then some (c.toNat - 55)
  else none

/-- Modelled from the spec: the external `decodeURIComponent`
primitive, "URL-decoding values (`+`→space, percent-decoding)" — a
`%` escape is replaced by the character it encodes, and a malformed
escape throws (`none`). -/
def pctDecode : List Char → Option (List Char)
  | [] => some []
  | '%' :: c1 :: c2 :: rest => do
    let h ← hexDigVal c1
    let l ← hexDigVal c2
    let r ← pctDecode rest
    pure (Char.ofNat (16 * h + l) :: r)
  | '%' :: _ => none
  | c :: rest => (pctDecode rest).map (c :: ·)

/-- `decodeURIComponent` on strings. -/
def decodeURIComponentM (s : String) : Option String :=
  (pctDecode s.data).map String.mk

/-- One pair of the query-string loop: store the decoded value under
the raw key in both maps, skipping the pair (the `catch` branch) when
the value is missing or fails to decode. -/
def applyQueryPair (qp data : Headers) (part : String) : Headers × Headers :=
  match (jsSplit part '=').get? 1 with
  | none => (qp, data)
  | some v =>
    match decodeURIComponentM (plusToSpace v) with
    | none => (qp, data)
    | some val =>
      (hset qp ((jsSplit part '=').headD "") val,
        hset data ((jsSplit part '=').headD "") val)

/-- Query-string decoding: split on `'&'` and apply each pair. -/
def queryDecode (qs : String) (qp data : Headers) : Headers × Headers :=
  (jsSplit qs '&').foldl (fun acc part => applyQueryPair acc.1 acc.2 part) (qp, data)

/-- One pair of the url-encoded body loop: as the query loop, but with
no surrounding `try`/`catch` — a missing value (the `undefined`
`part[1]`) or a decode failure throws out of the constructor. -/
def applyBodyPair (data : Headers) (part : String) : Option Headers :=
  match (jsSplit part '=').get? 1 with
  | none => none
  | some v =>
    match decodeURIComponentM (plusToSpace v) with
    | none => none
    | some val => some (hset data ((jsSplit part '=').headD "") val)

/-- The `application/x-www-form-urlencoded` branch of the `Request`
constructor: pair-decode the body into `data` only when it contains
both `'&'` and `'='`; otherwise store the whole raw body under
`data.post`. -/
def bodyUrlEncoded (post : String) (data : Headers) : Option Headers :=
  if jsIncludes post '&' && jsIncludes post '=' then
    (jsSplit post '&').foldlM applyBodyPair data
  else
    some (hset data "post" post)

theorem body_query_agree (parts : List String) :
    ∀ (data qp d : Headers), parts.foldlM applyBodyPair data = some d →
      (parts.foldl (fun acc part => applyQueryPair acc.1 acc.2 part) (qp, data)).2 = d := by
  induction parts with
  | nil =>
    intro data qp d h
    simp only [List.foldlM] at h
    simp only [List.foldl]
    exact (Option.some_inj.mp h)
  | cons p ps ih =>
    intro data qp d h
    simp only [List.foldlM_cons] at h
    match hb : applyBodyPair data p with
    | none => rw [hb] at h; simp at h
    | some d1 =>
      rw [hb] at h
      have h2 : List.foldlM applyBodyPair d1 ps = some d := h
      unfold applyBodyPair at hb
      simp only [List.foldl_cons]
      unfold applyQueryPair
      match hs : (jsSplit p '=').get? 1 with
      | none =>
        simp only [hs] at hb
        exact absurd hb (by simp)
      | some v =>
        simp only [hs] at hb ⊢
        match hd : decodeURIComponentM (plusToSpace v) with
        | none =>
          simp only [hd] at hb
          exact absurd hb (by simp)
        | some val =>
          simp only [hd] at hb ⊢
          simp only [Option.some_inj] at hb
          subst hb
          exact ih _ _ _ h2

/-- C6 (amended): a url-encoded body containing both `'&'` and `'='`
is decoded exactly like a query string — split on `'&'` into
name=value pairs, `'+'` replaced by space, percent-decoded — with
every decoded pair merged into `data` (so body `a=1&b=2` yields
`data.a = "1"` and `data.b = "2"`); a body without that shape is
instead stored whole under `data.post`. -/
theorem c6_urlencoded_body (post : String) (data qp : Headers) (k : String)
    (hamp : jsIncludes post '&' = true) (heqs : jsIncludes post '=' = true)
    (hsome : (bodyUrlEncoded post data).isSome = true) :
    Option.map (fun d => d k) (bodyUrlEncoded post data) =
      some ((queryDecode post qp data).2 k) ∧
    Option.map (fun d => d "a") (bodyUrlEncoded "a=1&b=2" hempty) = some (some "1") ∧
    Option.map (fun d => d "b") (bodyUrlEncoded "a=1&b=2" hempty) = some (some "2") := by
  refine ⟨?_, by decide, by decide⟩
  obtain ⟨d, hd⟩ := Option.isSome_iff_exists.mp hsome
  have hguard : (jsIncludes post '&' && jsIncludes post '=') = true := by
    rw [hamp, heqs]
    rfl
  unfold bodyUrlEncoded at hd
  rw [if_pos hguard] at hd
  have := body_query_agree (jsSplit post '&') data qp d hd
  unfold bodyUrlEncoded queryDecode
  rw [if_pos hguard, hd, this]
  rfl

/-- C6 counterexample: the single-pair body `a=1` (no `'&'`) is not
decoded like a query string: the code stores the raw body under
`data.post` and `data.a` stays unset, while query-string decoding of
the same text yields `a = "1"`. -/
theorem c6_counterexample :
    Option.map (fun d => d "a") (bodyUrlEncoded "a=1" hempty) = some none ∧
    Option.map (fun d => d "post") (bodyUrlEncoded "a=1" hempty) = some (some "a=1") ∧
    (queryDecode "a=1" hempty hempty).2 "a" = some "1" := by
  refine ⟨by decide, by decide, by decide⟩

/-- Witness for C6 at the body `a=1&b=2`. -/
theorem c6_witness :
    Option.map (fun d => d "a") (bodyUrlEncoded "a=1&b=2" hempty) =
      some ((queryDecode "a=1&b=2" hempty hempty).2 "a") := by
  exact (c6_urlencoded_body "a=1&b=2" hempty hempty "a"
    (by decide) (by decide) (by decide)).1

/-! ## WebSocket registry lifecycle (`WebSocket.js`, `run`)

`run()` inserts the socket into the module-level `webSockets` object
under its uuid, runs the message loop inside a `try`, and in the
`finally` first invokes the close listeners (inside another `try`)
and then — in the inner `finally` — deletes the uuid from the
registry.  The registry is a JavaScript object, so keys are unique
and `delete` removes the key outright. -/

/-- The process-wide `webSockets` object, as a set of uuids. -/
def Registry := String → Bool

/-- `webSockets[uuid] = this`. -/
def regInsert (u : String) (r : Registry) : Registry :=
  fun k => if k = u then true else r k

/-- `delete webSockets[uuid]`. -/
def regRemove (u : String) (r : Registry) : Registry :=
  fun k => if k = u then false else r k

/-- Completion of a JavaScript block: normal or via a thrown value. -/
inductive JsOutcome
  | ok
  | exn (e : String)
deriving DecidableEq

/-- `try { body } finally { fin }` acting on the registry: the finally
block always runs, and an exception it raises replaces the body's
outcome. -/
def tryFinallyReg (body : Registry → Registry × JsOutcome)
    (fin : Registry → Registry × JsOutcome) (r : Registry) : Registry × JsOutcome :=
  let br := body r
  let fr := fin br.1
  (fr.1, match fr.2 with | .ok => br.2 | .exn e => .exn e)

/-- The registry-relevant structure of `run()`: insert the uuid, run
the message loop (whose completion — normal exit on a close frame or
decode failure, or an escaping exception — is abstracted as
`loopOutcome`), then the guaranteed cleanup: close listeners (which
may themselves throw, `closeOutcome`) wrapped around the registry
delete.  Returns the registry as the loop sees it, the registry after
`run` ends, and the propagated outcome. -/
def wsRun (u : String) (loopOutcome closeOutcome : JsOutcome) (reg : Registry) :
    Registry × Registry × JsOutcome :=
  let during := regInsert u reg
  let res := tryFinallyReg (fun r => (r, loopOutcome))
    (tryFinallyReg (fun r => (r, closeOutcome)) (fun r => (regRemove u r, .ok)))
    during
  (during, res.1, res.2)

/-- C8: every WebSocket connection is present in the registry under
its identifier while its message loop runs, and is absent from the
registry once `run` has ended — whatever way the loop ended (close
frame, decode failure, or an exception) and even when a message or
close listener itself throws. -/
theorem c8_registry_removed_on_all_exits (u : String)
    (loopOutcome closeOutcome : JsOutcome) (reg : Registry) :
    (wsRun u loopOutcome closeOutcome reg).1 u = true ∧
    (wsRun u loopOutcome closeOutcome reg).2.1 u = false := by
  constructor
  · simp [wsRun, regInsert]
  · simp [wsRun, tryFinallyReg, regInsert, regRemove]

/-! ## WebSocket handshake (`WebSocket.js`, `makeAccept`)

`makeAccept(key)` computes `sha1(key + GUID)` through the external
`support.sha1` primitive (SHA-1 as a hex string), converts the hex
string two characters at a time into the underlying bytes via
`parseInt(hh, 16)` and `String.fromCharCode`, and base64-encodes the
result with the external `support.base64_encode`. -/

/-- Rotate a 32-bit word left by `n`. -/
def rotl (n x : Nat) : Nat := ((x <<< n) ||| (x >>> (32 - n))) % 4294967296

/-- Bitwise complement of a 32-bit word. -/
def notw (x : Nat) : Nat := x ^^^ 4294967295

/-- The SHA-1 round function. -/
def sha1F (t b c d : Nat) : Nat :=
  if t < 20 then (b &&& c) ||| (notw b &&& d)
  else if t < 40 then b ^^^ c ^^^ d
  else if t < 60 then (b &&& c) ||| (b &&& d) ||| (c &&& d)
  else b ^^^ c ^^^ d

/-- The SHA-1 round constants. -/
def sha1K (t : Nat) : Nat :=
  if t < 20 then 1518500249
  else if t < 40 then 1859775393
  else if t < 60 then 2400959708
  else 3395469782

/-- SHA-1 message padding: a `0x80` byte, zeros to 56 mod 64, then the
bit length as 8 big-endian bytes. -/
def sha1Pad (msg : List Nat) : List Nat :=
  let len := msg.length
  let zeros := (64 - ((len + 9) % 64)) % 64
  let bitLen := 8 * len
  msg ++ [128] ++ List.replicate zeros 0 ++
    [bitLen / 2 ^ 56 % 256, bitLen / 2 ^ 48 % 256, bitLen / 2 ^ 40 % 256,
      bitLen / 2 ^ 32 % 256, bitLen / 2 ^ 24 % 256, bitLen / 2 ^ 16 % 256,
      bitLen / 2 ^ 8 % 256, bitLen % 256]

/-- Big-endian 4-byte groups to 32-bit words. -/
def toWords : List Nat → List Nat
  | b0 :: b1 :: b2 :: b3 :: rest =>
    (((b0 * 256 + b1) * 256 + b2) * 256 + b3) :: toWords rest
  | _ => []

/-- Append the next word of the SHA-1 message schedule. -/
def extendOnce (ws : List Nat) : List Nat :=
  ws ++ [rotl 1 ((ws.getD (ws.length - 3) 0) ^^^ (ws.getD (ws.length - 8) 0) ^^^
    (ws.getD (ws.length - 14) 0) ^^^ (ws.getD (ws.length - 16) 0))]

/-- Extend the 16 chunk words to the 80 schedule words. -/
def extendTo80 (ws : List Nat) : List Nat :=
  (List.range 64).foldl (fun w _ => extendOnce w) ws

/-- One SHA-1 compression round. -/
def sha1Step (w : List Nat) (st : Nat × Nat × Nat × Nat × Nat) (t : Nat) :
    Nat × Nat × Nat × Nat × Nat :=
  match st with
  | (a, b, c, d, e) =>
    ((rotl 5 a + sha1F t b c d + e + sha1K t + w.getD t 0) % 4294967296,
      a, rotl 30 b, c, d)

/-- Process one 64-byte chunk. -/
def processChunk (hs : Nat × Nat × Nat × Nat × Nat) (chunk : List Nat) :
    Nat × Nat × Nat × Nat × Nat :=
  let ws := extendTo80 (toWords chunk)
  match hs with
  | (h0, h1, h2, h3, h4) =>
    match (List.range 80).foldl (sha1Step ws) (h0, h1, h2, h3, h4) with
    | (a, b, c, d, e) =>
      ((h0 + a) % 4294967296, (h1 + b) % 4294967296, (h2 + c) % 4294967296,
        (h3 + d) % 4294967296, (h4 + e) % 4294967296)

/-- Split into 64-byte chunks (fuelled; `length + 1` always suffices). -/
def chunks64 : Nat → List Nat → List (List Nat)
  | 0, _ => []
  | _ + 1, [] => []
  | f + 1, l@(_ :: _) => l.take 64 :: chunks64 f (l.drop 64)

/-- A 32-bit word as 4 big-endian bytes. -/
def wordBytes (w : Nat) : List Nat :=
  [w / 2 ^ 24 % 256, w / 2 ^ 16 % 256, w / 2 ^ 8 % 256, w % 256]

/-- Modelled from the spec: the external SHA-1 primitive consumed via
`support.sha1` — the 20-byte SHA-1 digest of the input bytes. -/
def sha1Bytes (msg : List Nat) : List Nat :=
  let padded := sha1Pad msg
  match (chunks64 (padded.length + 1) padded).foldl processChunk
      (1732584193, 4023233417, 2562383102, 271733878, 3285377520) with
  | (h0, h1, h2, h3, h4) =>
    wordBytes h0 ++ wordBytes h1 ++ wordBytes h2 ++ wordBytes h3 ++ wordBytes h4

/-- The lowercase hex digit of value `n`. -/
def hexDigitChar (n : Nat) : Char :=
  if n < 10 then Char.ofNat (48 + n) else Char.ofNat (87 + n)

/-- One byte as two hex characters. -/
def byteHex (b : Nat) : List Char := [hexDigitChar (b / 16), hexDigitChar (b % 16)]

/-- Bytes rendered as a hex string. -/
def bytesHex : List Nat → List Char
  | [] => []
  | b :: bs => byteHex b ++ bytesHex bs

/-- Modelled from the spec: `support.sha1` returns the digest as a hex
string (the case of the digits is immaterial: `makeAccept` parses the
pairs case-insensitively). -/
def sha1Hex (msg : List Nat) : List Char := bytesHex (sha1Bytes msg)

/-- Value of a hex digit as read by `parseInt(.., 16)` (either case);
a non-digit contributes 0, matching `String.fromCharCode(NaN)` on the
shapes that can occur here. -/
def hexCharVal (c : Char) : Nat :=
  if '0' ≤ c ∧ c ≤ '9' then c.toNat - 48
  else if 'a' ≤ c ∧ c ≤ 'f' then c.toNat - 87
  else if 'A' ≤ c ∧ c ≤ 'F' then c.toNat - 55
  else 0

/-- `parseInt(hex.substr(0, 2), 16)` on a two-character hex chunk. -/
def parseHexPair (c1 c2 : Char) : Nat := 16 * hexCharVal c1 + hexCharVal c2

/-- The `while (hex.length)` loop of `makeAccept`: consume the hex
string two characters at a time, producing one byte per pair. -/
def hexPairsToBytes : List Char → List Nat
  | c1 :: c2 :: rest => parseHexPair c1 c2 :: hexPairsToBytes rest
  | [c] => [hexCharVal c]
  | [] => []

/-- Character `n` of the base64 alphabet: the 26 uppercase letters,
the 26 lowercase letters, the 10 digits, then `+` and `/`. -/
def b64Char (n : Nat) : Char :=
  if n < 26 then Char.ofNat (65 + n)
  else if n < 52 then Char.ofNat (97 + (n - 26))
  else if n < 62 then Char.ofNat (48 + (n - 52))
  else if n = 62 then '+'
  else '/'

/-- Modelled from the spec: the external `support.base64_encode`
primitive (standard base64 with `=` padding). -/
def base64Encode : List Nat → List Char
  | [] => []
  | [b0] => [b64Char (b0 / 4), b64Char (b0 % 4 * 16), '=', '=']
  | [b0, b1] =>
    [b64Char (b0 / 4), b64Char (b0 % 4 * 16 + b1 / 16), b64Char (b1 % 16 * 4), '=']
  | b0 :: b1 :: b2 :: rest =>
    b64Char (b0 / 4) :: b64Char (b0 % 4 * 16 + b1 / 16) ::
      b64Char (b1 % 16 * 4 + b2 / 64) :: b64Char (b2 % 64) :: base64Encode rest

/-- A string as its character codes. -/
def strBytes (s : String) : List Nat := s.data.map Char.toNat

/-- The fixed GUID appended to the client key. -/
def guidBytes : List Nat := strBytes "258EAFA5-E914-47DA-95CA-C5AB0DC85B11"

/-- `makeAccept(key)` from `WebSocket.js`: hex SHA-1 of key + GUID,
converted pairwise to bytes, base64-encoded. -/
def makeAccept (key : List Nat) : List Char :=
  base64Encode (hexPairsToBytes (sha1Hex (key ++ guidBytes)))

/-- The response headers the `WebSocket` constructor installs before
sending the 101 status line. -/
def wsUpgradeHeaders (secWebSocketKey : String) : Headers :=
  hset (hset (hset hempty "Upgrade" "websocket") "Connection" "upgrade")
    "Sec-WebSocket-Accept" (String.mk (makeAccept (strBytes secWebSocketKey)))

/-- The status the `WebSocket` constructor sets. -/
def wsUpgradeStatus : Nat := 101

theorem wordBytes_lt (w : Nat) : ∀ b ∈ wordBytes w, b < 256 := by
  intro b hb
  simp only [wordBytes, List.mem_cons, List.not_mem_nil, or_false] at hb
  rcases hb with h | h | h | h <;> subst h <;> exact Nat.mod_lt _ (by norm_num)

theorem sha1Bytes_lt (msg : List Nat) : ∀ b ∈ sha1Bytes msg, b < 256 := by
  intro b hb
  unfold sha1Bytes at hb
  set r := (chunks64 ((sha1Pad msg).length + 1) (sha1Pad msg)).foldl processChunk
    (1732584193, 4023233417, 2562383102, 271733878, 3285377520) with hr
  match r with
  | (h0, h1, h2, h3, h4) =>
    simp only [List.mem_append] at hb
    rcases hb with ((((h | h) | h) | h) | h) <;> exact wordBytes_lt _ _ h

set_option maxRecDepth 20000 in
theorem parseHexPair_byteHex : ∀ b : Nat, b < 256 →
    hexPairsToBytes (byteHex b) = [b] := by
  decide

theorem hexPairs_bytesHex : ∀ bs : List Nat, (∀ b ∈ bs, b < 256) →
    hexPairsToBytes (bytesHex bs) = bs := by
  intro bs
  induction bs with
  | nil => intro _; rfl
  | cons b rest ih =>
    intro h
    have hb : b < 256 := h b (List.mem_cons_self b rest)
    have hx : hexPairsToBytes (byteHex b) = [b] := parseHexPair_byteHex b hb
    simp only [bytesHex, byteHex]
    show hexPairsToBytes (hexDigitChar (b / 16) :: hexDigitChar (b % 16) :: bytesHex rest) =
      b :: rest
    rw [hexPairsToBytes]
    have hpair : parseHexPair (hexDigitChar (b / 16)) (hexDigitChar (b % 16)) = b := by
      have := hx
      simp only [byteHex, hexPairsToBytes] at this
      exact (List.cons.injEq _ _ _ _).mp this |>.1
    rw [hpair]
    rw [ih (fun x hx2 => h x (List.mem_cons_of_mem b hx2))]

set_option maxRecDepth 8000 in
/-- C2: for every WebSocket upgrade, the `Sec-WebSocket-Accept`
response header is `makeAccept` of the client's `Sec-WebSocket-Key`,
which equals base64(SHA-1(key ++ GUID)); in particular the RFC 6455
test vector key `dGhlIHNhbXBsZSBub25jZQ==` yields
`s3pPLMBiTxaQ9kYGzzhZRbK+xOo=`, and the upgrade status is 101. -/
theorem c2_sec_websocket_accept :
    (∀ key : List Nat, makeAccept key = base64Encode (sha1Bytes (key ++ guidBytes))) ∧
    (∀ k : String, wsUpgradeHeaders k "Sec-WebSocket-Accept" =
        some (String.mk (makeAccept (strBytes k))) ∧ wsUpgradeStatus = 101) ∧
    makeAccept (strBytes "dGhlIHNhbXBsZSBub25jZQ==") =
      "s3pPLMBiTxaQ9kYGzzhZRbK+xOo=".data := by
  refine ⟨?_, ?_, ?_⟩
  · intro key
    unfold makeAccept sha1Hex
    rw [hexPairs_bytesHex _ (sha1Bytes_lt _)]
  · intro k
    constructor
    · simp [wsUpgradeHeaders, hset]
    · rfl
  · decide

end DecafModel
